import Mathlib

/-!
Shallow embedding of the stream-selection and acquisition program in src/app.py.

Strings are modelled as Lean strings; the Python string primitives used by the
source (strip, rstrip, replace, slicing, startswith, isdigit, int parsing) are
reimplemented below on the underlying character lists, restricted to ASCII
whitespace and ASCII digits, which is faithful for the catalog labels the
program manipulates.  The filesystem is modelled as an explicit state (a set of
directories and a set of files) threaded through the acquisition pipeline, and
observable behaviour (console reports and the external ffmpeg invocation) is
recorded as an ordered event list.
-/

namespace Ytdl

/-- ASCII whitespace, the characters removed by the Python str.strip used at
app.py line 19 (the Unicode-only whitespace characters are irrelevant here). -/
def pyIsSpace (c : Char) : Bool :=
  c = ' ' || c = '\t' || c = '\n' || c = '\x0b' || c = '\x0c' || c = '\r'

/-- Python str.strip with no argument: drop leading and trailing whitespace. -/
def pyStripWs (l : List Char) : List Char :=
  ((l.dropWhile pyIsSpace).reverse.dropWhile pyIsSpace).reverse

/-- Python str.rstrip with a character-set argument: drop trailing characters
that belong to the set, as in res.rstrip of a trailing p (app.py line 47). -/
def pyRstrip (l : List Char) (cs : List Char) : List Char :=
  (l.reverse.dropWhile (fun c => cs.contains c)).reverse

/-- Python str.isdigit restricted to ASCII: nonempty and all decimal digits. -/
def pyIsdigit (l : List Char) : Bool :=
  !l.isEmpty && l.all Char.isDigit

/-- Decimal value of a digit list (the value Python int returns on a string
that passed isdigit). -/
def decVal (l : List Char) : Nat :=
  l.foldl (fun acc c => acc * 10 + (c.toNat - 48)) 0

/-- Digit tail of a Python integer literal: digits with single underscores
allowed between digits, accumulating the decimal value. -/
def pyDigitsTail : List Char → Nat → Option Nat
  | [], acc => some acc
  | '_' :: c :: rest, acc =>
      if c.isDigit then pyDigitsTail rest (acc * 10 + (c.toNat - 48)) else none
  | ['_'], _ => none
  | c :: rest, acc =>
      if c.isDigit then pyDigitsTail rest (acc * 10 + (c.toNat - 48)) else none

/-- Nonempty digit sequence of a Python integer literal. -/
def pyDigits : List Char → Option Nat
  | [] => none
  | c :: rest => if c.isDigit then pyDigitsTail rest (c.toNat - 48) else none

/-- Python int applied to a string (ASCII): optional surrounding whitespace,
optional sign, then digits with optional single interior underscores; any
other shape raises, modelled as none. -/
def pyInt (l : List Char) : Option Int :=
  match pyStripWs l with
  | '+' :: rest => (pyDigits rest).map (fun n => (n : Int))
  | '-' :: rest => (pyDigits rest).map (fun n => -(n : Int))
  | rest => (pyDigits rest).map (fun n => (n : Int))

/-- Python str.startswith, computed structurally on the character lists. -/
def listIsPref : List Char → List Char → Bool
  | [], _ => true
  | _ :: _, [] => false
  | a :: as, b :: bs => a == b && listIsPref as bs

/-- Python s.startswith t on whole strings. -/
def pyStartswith (s t : String) : Bool :=
  listIsPref t.data s.data

/-- The characters removed by the regex substitution in safe_name
(app.py line 18). -/
def forbiddenChars : List Char :=
  ['\\', '/', '*', '?', ':', '"', '<', '>', '|']

/-- First stage of safe_name: the regex substitution removing every occurrence
of a forbidden character. -/
def removeForbidden (l : List Char) : List Char :=
  l.filter (fun c => !forbiddenChars.contains c)

/-- Third stage of safe_name: Python replace of every single space character
by an underscore (other whitespace characters are left alone). -/
def replaceSpaces (l : List Char) : List Char :=
  l.map (fun c => if c = ' ' then '_' else c)

/-- safe_name from app.py lines 14 to 20: remove the forbidden characters,
strip surrounding whitespace, replace each space by an underscore, truncate
to max_length characters. -/
def safe_name (name : String) (max_length : Nat := 255) : String :=
  ⟨(replaceSpaces (pyStripWs (removeForbidden name.data))).take max_length⟩

/-- Helper for the spec-side sanitizer: walk the characters emitting one
underscore per maximal whitespace run, tracking whether a run is open. -/
def collapseGo : Bool → List Char → List Char
  | _, [] => []
  | inRun, c :: rest =>
      if pyIsSpace c then
        if inRun then collapseGo true rest else '_' :: collapseGo true rest
      else c :: collapseGo false rest

/-- Collapse each whitespace run into a single underscore (helper for the
spec-side sanitizer below). -/
def collapseWsRuns (l : List Char) : List Char :=
  collapseGo false l

/-- Follows the words of the spec, for comparison with safe_name: removes the
forbidden characters, trims surrounding whitespace, replaces each remaining
interior whitespace run with a single underscore, truncates to maxLength. -/
def sanitizeSpecModel (name : String) (max_length : Nat := 255) : String :=
  ⟨(collapseWsRuns (pyStripWs (removeForbidden name.data))).take max_length⟩

/-- One downloadable variant of a media item, with the attributes the source
reads from the catalog provider: the mime type string, the optional
resolution label, whether the variant carries an audio track, whether it
carries a video track, and the optional audio-bitrate label. -/
structure Stream where
  mime_type : String
  resolution : Option String
  includes_audio_track : Bool
  includes_video_track : Bool
  abr : Option String
deriving DecidableEq

/-- A media item as the pipeline sees it: a title and the catalog of variants
returned by the provider, in catalog order. -/
structure YT where
  title : String
  streams : List Stream
deriving DecidableEq

/-- res_to_int from app.py lines 40 to 49: None maps to 0, otherwise strip
trailing p characters and parse as a Python int, any failure mapping to 0. -/
def res_to_int (res : Option String) : Int :=
  match res with
  | none => 0
  | some s =>
      match pyInt (pyRstrip s.data ['p']) with
      | some n => n
      | none => 0

/-- The local audio_bitrate helper from app.py lines 84 to 88 and 97 to 101:
a falsy abr maps to 0, otherwise strip trailing characters from the set
k b p s and, when the remainder passes isdigit, parse it, else 0. -/
def audio_bitrate (s : Stream) : Int :=
  match s.abr with
  | none => 0
  | some a =>
      if a = "" then 0
      else
        let r := pyRstrip a.data ['k', 'b', 'p', 's']
        if pyIsdigit r then (decVal r : Int) else 0

/-- Python truthiness of the optional resolution attribute, as tested by
the expression s.resolution at app.py line 71. -/
def resTruthy : Option String → Bool
  | none => false
  | some s => !(s = "")

/-- Stable insertion of one element into a list already sorted in descending
key order: the element goes before the first entry whose key is not larger,
which is exactly the placement the stable Python list.sort with reverse=True
gives to an earlier-encountered element. -/
def insertDescBy (key : Stream → Int) (x : Stream) : List Stream → List Stream
  | [] => [x]
  | y :: ys => if key y ≤ key x then x :: y :: ys else y :: insertDescBy key x ys

/-- Python list.sort with a key and reverse=True: descending in the key and
stable, so entries with equal keys keep their original relative order. -/
def sortDescBy (key : Stream → Int) : List Stream → List Stream
  | [] => []
  | x :: xs => insertDescBy key x (sortDescBy key xs)

/-- The video streams of the catalog: variants whose mime type starts with
the word video (app.py line 69). -/
def videoStreams (yt : YT) : List Stream :=
  yt.streams.filter (fun s => pyStartswith s.mime_type "video")

/-- The candidate set of app.py line 71: video streams with a truthy
resolution label whose parsed rank is at most 1080. -/
def candidates (yt : YT) : List Stream :=
  (videoStreams yt).filter
    (fun s => resTruthy s.resolution && decide (res_to_int s.resolution ≤ 1080))

/-- The audio-only variants of the whole catalog, as selected by the library
filter with only_audio=True at app.py line 95: an audio track and no video
track. -/
def audioOnlyStreams (yt : YT) : List Stream :=
  yt.streams.filter (fun s => s.includes_audio_track && !s.includes_video_track)

/-- The best audio stream of app.py lines 95 to 105: the audio-only variants
sorted descending by bitrate, first one taken, none when the list is empty. -/
def bestAudioStream (yt : YT) : Option Stream :=
  (sortDescBy audio_bitrate (audioOnlyStreams yt)).head?

/-- choose_best_video_combo from app.py lines 51 to 106.  The emptiness guard
of line 72 and the two indexings with 0 are realized through the matches: the
sorted list is empty exactly when the candidate list is.  The result mirrors
the Python triple: a decision label or none, the chosen video-side stream and
the chosen audio-side stream. -/
def choose_best_video_combo (yt : YT) :
    Option String × Option Stream × Option Stream :=
  match sortDescBy (fun s => res_to_int s.resolution) (candidates yt) with
  | [] => (none, none, none)
  | s0 :: rest =>
      let best_res := res_to_int s0.resolution
      let best_group :=
        (s0 :: rest).filter (fun s => res_to_int s.resolution == best_res)
      match sortDescBy audio_bitrate
          (best_group.filter (fun s => s.includes_audio_track)) with
      | p :: _ => (some "progressive", some p, none)
      | [] => (some "merge", best_group.head?, bestAudioStream yt)

/-- The maximum candidate resolution rank as the source computes it at
app.py line 77: the rank of the head of the descending-sorted candidates. -/
def bestRank (yt : YT) : Int :=
  match sortDescBy (fun s => res_to_int s.resolution) (candidates yt) with
  | [] => 0
  | s0 :: _ => res_to_int s0.resolution

/-- The top tier in catalog order: candidates whose rank equals the best
rank. -/
def topTier (yt : YT) : List Stream :=
  (candidates yt).filter (fun s => res_to_int s.resolution == bestRank yt)

/-- The progressive members of the top tier, in catalog order. -/
def progressiveTop (yt : YT) : List Stream :=
  (topTier yt).filter (fun s => s.includes_audio_track)

/-- Filesystem state: the directories and the files currently present. -/
structure FS where
  dirs : List String
  files : List String
deriving DecidableEq

/-- os.makedirs with exist_ok=True: create the directory when absent, no
effect when it is already present. -/
def FS.mkdirs (fs : FS) (d : String) : FS :=
  if d ∈ fs.dirs then fs else { fs with dirs := d :: fs.dirs }

/-- A completed download places one file at the given path. -/
def FS.addFile (fs : FS) (p : String) : FS :=
  if p ∈ fs.files then fs else { fs with files := p :: fs.files }

/-- os.remove: delete the file when present, raise (modelled as error) when
absent. -/
def osRemove (fs : FS) (p : String) : Except String FS :=
  if p ∈ fs.files then .ok { fs with files := fs.files.erase p }
  else .error "FileNotFoundError"

/-- Observable behaviour of the pipeline: console reports and the external
ffmpeg invocation with its exit code. -/
inductive Event where
  | msg (s : String)
  | ffmpegRun (video_path : String) (audio_path : String) (output_path : String)
      (exitCode : Int)
deriving DecidableEq

/-- os.path.join of two plain relative segments. -/
def pjoin (a b : String) : String :=
  a ++ "/" ++ b

/-- The nondeterministic outside world for one acquisition: whether the first
and the second network transfer of the call succeed, and the exit code the
external ffmpeg process returns. -/
structure Env where
  videoOk : Bool
  audioOk : Bool
  mergeExit : Int
deriving DecidableEq

/-- One stream.download call inside a try block.  Calling download on a
missing stream object raises an AttributeError before any transfer; a failed
transfer raises and is modelled as leaving no file behind; a successful
transfer places the file at the target path. -/
def tryDownload (ok : Bool) (stream : Option Stream) (path : String) (fs : FS) :
    Except String FS :=
  match stream with
  | none => .error "AttributeError"
  | some _ => if ok then .ok (fs.addFile path) else .error "DownloadError"

/-- merge_video_audio from app.py lines 22 to 38: print the command, run the
external process, report failure on a nonzero exit and success otherwise, and
return the output path unconditionally.  Following the external-tool contract
of the spec (section 6), the invocation writes the output file exactly when it
exits with 0. -/
def merge_video_audio (exitCode : Int) (video_path audio_path output_path : String)
    (fs : FS) : FS × List Event × String :=
  let events :=
    [Event.msg "Running FFmpeg command:",
     Event.ffmpegRun video_path audio_path output_path exitCode,
     if exitCode ≠ 0 then Event.msg "FFmpeg merging failed!"
     else Event.msg "Merging complete!"]
  let fs1 := if exitCode = 0 then fs.addFile output_path else fs
  (fs1, events, output_path)

/-- Modelled from the spec: the external stream-library call
yt.streams.get_audio_only used at app.py line 151 is not part of src/; per
section 4.4 of the spec it selects the single best audio-only variant by
bitrate rank directly from the full catalog. -/
def get_audio_only (yt : YT) : Option Stream :=
  (sortDescBy audio_bitrate (audioOnlyStreams yt)).head?

/-- The per-item destination folder of app.py line 147. -/
def videoFolder (base_folder : String) (yt : YT) : String :=
  pjoin base_folder (safe_name yt.title)

/-- The temporary video-side path of the merge branch (app.py line 179). -/
def videoTempPath (base_folder : String) (yt : YT) : String :=
  pjoin (videoFolder base_folder yt) (safe_name yt.title ++ "_video.mp4")

/-- The temporary audio-side path of the merge branch (app.py line 180). -/
def audioTempPath (base_folder : String) (yt : YT) : String :=
  pjoin (videoFolder base_folder yt) (safe_name yt.title ++ "_audio.mp4")

/-- The final merged-output path of the merge branch (app.py line 181). -/
def mergedPath (base_folder : String) (yt : YT) : String :=
  pjoin (videoFolder base_folder yt) (safe_name yt.title ++ ".mp4")

/-- download_single_video_auto from app.py lines 140 to 200, returning the
final filesystem and the ordered event list.  The destination folder is
created first; the audio mode downloads the best audio-only stream; the video
mode runs the selector and either downloads one progressive stream or
downloads the two sides, merges them externally and then removes the two
temporary files inside a try block whose failure is only logged. -/
def download_single_video_auto (env : Env) (yt : YT) (mode : String)
    (base_folder : String) (fs0 : FS) : FS × List Event :=
  let video_folder := videoFolder base_folder yt
  let fs := fs0.mkdirs video_folder
  if mode = "audio" then
    match get_audio_only yt with
    | none => (fs, [Event.msg "No audio stream found!"])
    | some st =>
        let filename := safe_name yt.title ++ "_audio.mp4"
        match tryDownload env.audioOk (some st) (pjoin video_folder filename) fs with
        | .ok fs1 => (fs1, [Event.msg ("Audio downloaded for: " ++ yt.title)])
        | .error e => (fs, [Event.msg ("Error downloading audio: " ++ e)])
  else if mode = "video" then
    match choose_best_video_combo yt with
    | (none, _, _) =>
        (fs, [Event.msg "Could not determine a valid stream for video download."])
    | (some decision, video_stream, audio_stream) =>
        if decision = "progressive" then
          let filename := safe_name yt.title ++ ".mp4"
          match tryDownload env.videoOk video_stream (pjoin video_folder filename) fs with
          | .ok fs1 =>
              (fs1, [Event.msg ("Video downloaded (progressive) for: " ++ yt.title)])
          | .error e =>
              (fs, [Event.msg ("Error downloading progressive video: " ++ e)])
        else if decision = "merge" then
          let video_path := videoTempPath base_folder yt
          let audio_path := audioTempPath base_folder yt
          let merged_path := mergedPath base_folder yt
          match tryDownload env.videoOk video_stream video_path fs with
          | .error e =>
              (fs, [Event.msg ("Downloading video-only stream for: " ++ yt.title),
                    Event.msg ("Error downloading streams: " ++ e)])
          | .ok fs1 =>
              match tryDownload env.audioOk audio_stream audio_path fs1 with
              | .error e =>
                  (fs1, [Event.msg ("Downloading video-only stream for: " ++ yt.title),
                         Event.msg ("Downloading audio stream for: " ++ yt.title),
                         Event.msg ("Error downloading streams: " ++ e)])
              | .ok fs2 =>
                  let merged := merge_video_audio env.mergeExit video_path audio_path
                    merged_path fs2
                  let preEvents :=
                    [Event.msg ("Downloading video-only stream for: " ++ yt.title),
                     Event.msg ("Downloading audio stream for: " ++ yt.title),
                     Event.msg ("Merging video and audio for: " ++ yt.title)]
                  match osRemove merged.1 video_path with
                  | .error e =>
                      (merged.1, preEvents ++ merged.2.1 ++
                        [Event.msg ("Error cleaning up temporary files: " ++ e)])
                  | .ok fs4 =>
                      match osRemove fs4 audio_path with
                      | .error e =>
                          (fs4, preEvents ++ merged.2.1 ++
                            [Event.msg ("Error cleaning up temporary files: " ++ e)])
                      | .ok fs5 =>
                          (fs5, preEvents ++ merged.2.1 ++
                            [Event.msg "Temporary files removed."])
        else (fs, [])
  else (fs, [Event.msg "Invalid mode for auto download."])

/-- One playlist entry as the walk sees it: whether the YouTube handle
construction of app.py lines 230 to 235 succeeds, whether the later title and
metadata resolution of line 240 succeeds, the resolved item, and the outside
world for its acquisition. -/
structure PlItem where
  initOk : Bool
  titleOk : Bool
  yt : YT
  env : Env
deriving DecidableEq

/-- A playlist as the walk sees it: whether the Playlist handle construction
succeeds, the playlist title (empty meaning falsy) and the ordered items. -/
structure PL where
  initOk : Bool
  title : String
  items : List PlItem
deriving DecidableEq

/-- The per-item loop body of download_playlist (app.py lines 227 to 246).
A handle-construction failure is caught and the walk continues with the next
item; a failure resolving the title at line 240 happens outside any try block
and propagates, modelled as an error that aborts the remaining walk. -/
def processItems (mode pl_folder : String) : FS → List PlItem →
    Except String (FS × List Event)
  | fs, [] => .ok (fs, [])
  | fs, it :: rest =>
      if it.initOk = false then
        match processItems mode pl_folder fs rest with
        | .ok out => .ok (out.1, Event.msg "Error initializing video:" :: out.2)
        | .error e => .error e
      else if it.titleOk = false then
        .error "PytubeError: could not resolve video metadata"
      else
        let step :=
          if mode = "audio" then
            download_single_video_auto it.env it.yt "audio" pl_folder fs
          else if mode = "video" then
            download_single_video_auto it.env it.yt "video" pl_folder fs
          else (fs, [Event.msg "Unknown mode for playlist download."])
        match processItems mode pl_folder step.1 rest with
        | .ok out =>
            .ok (out.1, Event.msg ("Title: " ++ it.yt.title) :: step.2 ++ out.2)
        | .error e => .error e

/-- download_playlist from app.py lines 202 to 246: a failed playlist handle
construction is reported and the function returns; otherwise the playlist
folder named by the sanitized title (with a fallback for a falsy title) and
the mode is created and each item is visited in order. -/
def download_playlist (pl : PL) (mode base_folder : String) (fs0 : FS) :
    Except String (FS × List Event) :=
  if pl.initOk = false then .ok (fs0, [Event.msg "Error initializing Playlist:"])
  else
    let pl_title := if pl.title = "" then "Untitled_Playlist" else pl.title
    let pl_folder := pjoin (pjoin base_folder (safe_name pl_title)) mode
    let fs := fs0.mkdirs pl_folder
    processItems mode pl_folder fs pl.items

/-- Whether the playlist walk ran to completion rather than aborting with a
propagated exception. -/
def walkCompleted : Except String (FS × List Event) → Bool
  | .ok _ => true
  | .error _ => false

/-! Lemmas about the stable descending sort used by the selector. -/

theorem mem_insertDescBy (key : Stream → Int) (x a : Stream) (l : List Stream) :
    a ∈ insertDescBy key x l ↔ a = x ∨ a ∈ l := by
  induction l with
  | nil => simp [insertDescBy]
  | cons y ys ih =>
      by_cases h : key y ≤ key x
      · simp [insertDescBy, h]
      · simp only [insertDescBy, if_neg h, List.mem_cons, ih]
        tauto

theorem mem_sortDescBy (key : Stream → Int) (a : Stream) (l : List Stream) :
    a ∈ sortDescBy key l ↔ a ∈ l := by
  induction l with
  | nil => simp [sortDescBy]
  | cons x xs ih => simp [sortDescBy, mem_insertDescBy, ih]

theorem insertDescBy_ne_nil (key : Stream → Int) (x : Stream) (l : List Stream) :
    insertDescBy key x l ≠ [] := by
  cases l with
  | nil => simp [insertDescBy]
  | cons y ys =>
      rw [insertDescBy]
      split <;> simp

theorem sortDescBy_eq_nil_iff (key : Stream → Int) (l : List Stream) :
    sortDescBy key l = [] ↔ l = [] := by
  cases l with
  | nil => simp [sortDescBy]
  | cons x xs =>
      rw [sortDescBy]
      simp [insertDescBy_ne_nil]

theorem insertDescBy_of_le (key : Stream → Int) (x : Stream) (l : List Stream)
    (h : ∀ y ∈ l, key y ≤ key x) : insertDescBy key x l = x :: l := by
  cases l with
  | nil => rfl
  | cons y ys => rw [insertDescBy, if_pos (h y (List.mem_cons_self y ys))]

theorem sortDescBy_head_max (key : Stream → Int) (l : List Stream) :
    ∀ z zs, sortDescBy key l = z :: zs → ∀ y ∈ l, key y ≤ key z := by
  induction l with
  | nil =>
      intro z zs h
      simp [sortDescBy] at h
  | cons x xs ih =>
      intro z zs h y hy
      rw [sortDescBy] at h
      rcases hsort : sortDescBy key xs with _ | ⟨w, ws⟩
      · rw [hsort] at h
        simp only [insertDescBy] at h
        have hxz : x = z := (List.cons.injEq x [] z zs).mp h |>.1
        have hxs : xs = [] := (sortDescBy_eq_nil_iff key xs).mp hsort
        subst hxs
        rcases List.mem_singleton.mp hy with rfl
        exact le_of_eq (congrArg key hxz)
      · rw [hsort, insertDescBy] at h
        by_cases hc : key w ≤ key x
        · rw [if_pos hc] at h
          have hxz : x = z := (List.cons.injEq x (w :: ws) z zs).mp h |>.1
          subst hxz
          rcases List.mem_cons.mp hy with rfl | hmem
          · exact le_refl _
          · exact le_trans (ih w ws hsort y hmem) hc
        · rw [if_neg hc] at h
          have hwz : w = z := (List.cons.injEq w _ z zs).mp h |>.1
          subst hwz
          rcases List.mem_cons.mp hy with rfl | hmem
          · exact le_of_lt (lt_of_not_le hc)
          · exact ih w ws hsort y hmem

theorem filter_insertDescBy_of_ne (key : Stream → Int) (x : Stream)
    (l : List Stream) (m : Int) (h : ¬ key x = m) :
    (insertDescBy key x l).filter (fun s => key s == m)
      = l.filter (fun s => key s == m) := by
  induction l with
  | nil => simp [insertDescBy, List.filter_cons, h]
  | cons y ys ih =>
      rw [insertDescBy]
      by_cases hc : key y ≤ key x
      · rw [if_pos hc, List.filter_cons]
        simp [h]
      · rw [if_neg hc, List.filter_cons, List.filter_cons, ih]

theorem sortDescBy_filter_max (key : Stream → Int) (l : List Stream) (m : Int)
    (hm : ∀ y ∈ l, key y ≤ m) :
    (sortDescBy key l).filter (fun s => key s == m)
      = l.filter (fun s => key s == m) := by
  induction l with
  | nil => simp [sortDescBy]
  | cons x xs ih =>
      have hmxs : ∀ y ∈ xs, key y ≤ m := fun y hy => hm y (List.mem_cons_of_mem x hy)
      rw [sortDescBy]
      by_cases hx : key x = m
      · have hall : ∀ y ∈ sortDescBy key xs, key y ≤ key x := by
          intro y hy
          rw [mem_sortDescBy] at hy
          rw [hx]
          exact hmxs y hy
        rw [insertDescBy_of_le key x _ hall, List.filter_cons, List.filter_cons,
          ih hmxs]
      · rw [filter_insertDescBy_of_ne key x _ m hx, ih hmxs, List.filter_cons]
        simp [hx]

theorem sortDescBy_head_mem (key : Stream → Int) (l : List Stream) (z : Stream)
    (zs : List Stream) (h : sortDescBy key l = z :: zs) : z ∈ l := by
  have hz : z ∈ sortDescBy key l := by
    rw [h]
    exact List.mem_cons_self z zs
  rwa [mem_sortDescBy] at hz

theorem sortDescBy_head_first (key : Stream → Int) (l : List Stream) (z : Stream)
    (zs : List Stream) (h : sortDescBy key l = z :: zs) :
    (l.filter (fun s => key s == key z)).head? = some z := by
  have hmax := sortDescBy_head_max key l z zs h
  have hfil := sortDescBy_filter_max key l (key z) hmax
  rw [← hfil, h, List.filter_cons]
  simp

/-! Bridge lemmas connecting the selector body to the catalog-order notions. -/

/-- Every candidate passed the resolution gate of app.py line 71. -/
theorem mem_candidates_rank_le (yt : YT) (s : Stream) (h : s ∈ candidates yt) :
    res_to_int s.resolution ≤ 1080 := by
  rw [candidates] at h
  have hp := (List.mem_filter.mp h).2
  simp only [Bool.and_eq_true, decide_eq_true_eq] at hp
  exact hp.2

/-- Every candidate is a video stream of the catalog. -/
theorem mem_candidates_video (yt : YT) (s : Stream) (h : s ∈ candidates yt) :
    pyStartswith s.mime_type "video" = true := by
  rw [candidates] at h
  have hv := (List.mem_filter.mp h).1
  rw [videoStreams] at hv
  exact (List.mem_filter.mp hv).2

/-- A list whose optional head is the given element contains it. -/
theorem head_some_mem (l : List Stream) (a : Stream) (h : l.head? = some a) :
    a ∈ l := by
  cases l with
  | nil => exact absurd h (by simp)
  | cons w ws =>
      simp only [List.head?_cons, Option.some.injEq] at h
      rw [← h]
      exact List.mem_cons_self w ws

/-- When the candidates sort to a nonempty list, the best rank the source
computes is the rank of the sorted head. -/
theorem bestRank_eq (yt : YT) (s0 : Stream) (rest : List Stream)
    (hsort : sortDescBy (fun s => res_to_int s.resolution) (candidates yt)
      = s0 :: rest) :
    bestRank yt = res_to_int s0.resolution := by
  rw [bestRank, hsort]

/-- The group the source builds from the sorted candidate list at the best
rank equals the top tier taken in catalog order (stability of the sort). -/
theorem best_group_eq_topTier (yt : YT) (s0 : Stream) (rest : List Stream)
    (hsort : sortDescBy (fun s => res_to_int s.resolution) (candidates yt)
      = s0 :: rest) :
    (s0 :: rest).filter (fun s => res_to_int s.resolution == res_to_int s0.resolution)
      = topTier yt := by
  have hmax := sortDescBy_head_max (fun s => res_to_int s.resolution)
    (candidates yt) s0 rest hsort
  have hfil := sortDescBy_filter_max (fun s => res_to_int s.resolution)
    (candidates yt) (res_to_int s0.resolution) hmax
  rw [hsort] at hfil
  rw [hfil, topTier, bestRank_eq yt s0 rest hsort]

/-- The head of the top tier is the head of the sorted candidate list. -/
theorem topTier_head (yt : YT) (s0 : Stream) (rest : List Stream)
    (hsort : sortDescBy (fun s => res_to_int s.resolution) (candidates yt)
      = s0 :: rest) :
    (topTier yt).head? = some s0 := by
  rw [← best_group_eq_topTier yt s0 rest hsort, List.filter_cons]
  simp

/-- C2: whenever the top tier contains a progressive variant, the selector
returns the single progressive decision carrying the progressive top-tier
variant of maximal audio-bitrate rank, first encountered in catalog order
among ties, and in particular never the merge decision; moreover the top
tier really is at the maximum candidate rank. -/
theorem selector_single_of_progressive_top (yt : YT)
    (hprog : progressiveTop yt ≠ []) :
    ∃ p, choose_best_video_combo yt = (some "progressive", some p, none)
      ∧ p ∈ topTier yt ∧ p.includes_audio_track = true
      ∧ (∀ q ∈ progressiveTop yt, audio_bitrate q ≤ audio_bitrate p)
      ∧ ((progressiveTop yt).filter
          (fun q => audio_bitrate q == audio_bitrate p)).head? = some p
      ∧ (∀ s ∈ candidates yt, res_to_int s.resolution ≤ bestRank yt) := by
  have hcand : candidates yt ≠ [] := by
    intro hnil
    apply hprog
    rw [progressiveTop, topTier, hnil]
    rfl
  rcases hsort : sortDescBy (fun s => res_to_int s.resolution) (candidates yt)
    with _ | ⟨s0, rest⟩
  · exact absurd ((sortDescBy_eq_nil_iff _ _).mp hsort) hcand
  · have hgroup := best_group_eq_topTier yt s0 rest hsort
    have hptne : sortDescBy audio_bitrate (progressiveTop yt) ≠ [] := by
      rw [Ne, sortDescBy_eq_nil_iff]
      exact hprog
    rcases hps : sortDescBy audio_bitrate (progressiveTop yt) with _ | ⟨p, ps⟩
    · exact absurd hps hptne
    · have hps2 : sortDescBy audio_bitrate
          (((s0 :: rest).filter
            (fun s => res_to_int s.resolution == res_to_int s0.resolution)).filter
            (fun s => s.includes_audio_track)) = p :: ps := by
        rw [hgroup]
        exact hps
      refine ⟨p, ?_, ?_, ?_, ?_, ?_, ?_⟩
      · rw [choose_best_video_combo, hsort]
        simp only [hps2]
      · have hpmem : p ∈ progressiveTop yt :=
          sortDescBy_head_mem audio_bitrate (progressiveTop yt) p ps hps
        exact (List.mem_filter.mp hpmem).1
      · have hpmem : p ∈ progressiveTop yt :=
          sortDescBy_head_mem audio_bitrate (progressiveTop yt) p ps hps
        exact (List.mem_filter.mp hpmem).2
      · exact sortDescBy_head_max audio_bitrate (progressiveTop yt) p ps hps
      · exact sortDescBy_head_first audio_bitrate (progressiveTop yt) p ps hps
      · intro t ht
        rw [bestRank_eq yt s0 rest hsort]
        exact sortDescBy_head_max (fun s => res_to_int s.resolution)
          (candidates yt) s0 rest hsort t ht

/-- C3: with a nonempty candidate set, no progressive variant in the top tier
and at least one audio-only variant in the catalog, the selector returns the
merge decision pairing the first top-tier candidate in catalog order (which
is a video stream without an audio track, at the maximum candidate rank)
with the audio-only variant of maximal bitrate rank over the whole catalog,
first encountered among ties. -/
theorem selector_merge_of_no_progressive_top (yt : YT)
    (hne : candidates yt ≠ [])
    (hnoprog : ∀ s ∈ topTier yt, s.includes_audio_track = false)
    (haud : audioOnlyStreams yt ≠ []) :
    ∃ v a, choose_best_video_combo yt = (some "merge", some v, some a)
      ∧ (topTier yt).head? = some v
      ∧ res_to_int v.resolution = bestRank yt
      ∧ (∀ s ∈ candidates yt, res_to_int s.resolution ≤ bestRank yt)
      ∧ pyStartswith v.mime_type "video" = true
      ∧ v.includes_audio_track = false
      ∧ a ∈ audioOnlyStreams yt
      ∧ (∀ b ∈ audioOnlyStreams yt, audio_bitrate b ≤ audio_bitrate a)
      ∧ ((audioOnlyStreams yt).filter
          (fun b => audio_bitrate b == audio_bitrate a)).head? = some a := by
  rcases hsort : sortDescBy (fun s => res_to_int s.resolution) (candidates yt)
    with _ | ⟨s0, rest⟩
  · exact absurd ((sortDescBy_eq_nil_iff _ _).mp hsort) hne
  · have hgroup := best_group_eq_topTier yt s0 rest hsort
    have hprognil : (topTier yt).filter (fun s => s.includes_audio_track) = [] :=
      List.filter_eq_nil_iff.mpr (by
        intro a ha
        rw [hnoprog a ha]
        exact Bool.false_ne_true)
    have hsatne : sortDescBy audio_bitrate (audioOnlyStreams yt) ≠ [] := by
      rw [Ne, sortDescBy_eq_nil_iff]
      exact haud
    rcases hsa : sortDescBy audio_bitrate (audioOnlyStreams yt) with _ | ⟨a, as⟩
    · exact absurd hsa hsatne
    · have hs0top : s0 ∈ topTier yt := by
        rw [← hgroup]
        exact List.mem_filter.mpr ⟨List.mem_cons_self s0 rest, by simp⟩
      have hps2 : sortDescBy audio_bitrate
          (((s0 :: rest).filter
            (fun s => res_to_int s.resolution == res_to_int s0.resolution)).filter
            (fun s => s.includes_audio_track)) = [] := by
        rw [hgroup, hprognil]
        rfl
      have hbg : ((s0 :: rest).filter
          (fun s => res_to_int s.resolution == res_to_int s0.resolution)).head?
            = some s0 := by
        rw [List.filter_cons]
        simp
      refine ⟨s0, a, ?_, topTier_head yt s0 rest hsort,
        (bestRank_eq yt s0 rest hsort).symm, ?_, ?_, hnoprog s0 hs0top, ?_, ?_, ?_⟩
      · rw [choose_best_video_combo, hsort]
        simp only [hps2, hbg, bestAudioStream, hsa]
        rfl
      · intro t ht
        rw [bestRank_eq yt s0 rest hsort]
        exact sortDescBy_head_max (fun s => res_to_int s.resolution)
          (candidates yt) s0 rest hsort t ht
      · exact mem_candidates_video yt s0
          (sortDescBy_head_mem (fun s => res_to_int s.resolution)
            (candidates yt) s0 rest hsort)
      · exact sortDescBy_head_mem audio_bitrate (audioOnlyStreams yt) a as hsa
      · exact sortDescBy_head_max audio_bitrate (audioOnlyStreams yt) a as hsa
      · exact sortDescBy_head_first audio_bitrate (audioOnlyStreams yt) a as hsa

/-- C4: the selector never hands back a video-side stream whose resolution
rank exceeds the 1080 cap, and an empty candidate set yields the empty
selection triple. -/
theorem selector_rank_cap (yt : YT) :
    (∀ s : Stream, (choose_best_video_combo yt).2.1 = some s →
        res_to_int s.resolution ≤ 1080)
    ∧ (candidates yt = [] → choose_best_video_combo yt = (none, none, none)) := by
  constructor
  · intro s hres
    rcases hsort : sortDescBy (fun s => res_to_int s.resolution) (candidates yt)
      with _ | ⟨s0, rest⟩
    · rw [choose_best_video_combo, hsort] at hres
      exact absurd hres (by simp)
    · rw [choose_best_video_combo, hsort] at hres
      rcases hps : sortDescBy audio_bitrate
          (((s0 :: rest).filter
            (fun t => res_to_int t.resolution == res_to_int s0.resolution)).filter
            (fun t => t.includes_audio_track)) with _ | ⟨p, ps⟩
      · simp only [hps] at hres
        have hmem : s ∈ (s0 :: rest).filter
            (fun t => res_to_int t.resolution == res_to_int s0.resolution) :=
          head_some_mem _ s hres
        have hsort2 : s ∈ sortDescBy (fun t => res_to_int t.resolution)
            (candidates yt) := by
          rw [hsort]
          exact List.mem_of_mem_filter hmem
        exact mem_candidates_rank_le yt s ((mem_sortDescBy _ _ _).mp hsort2)
      · simp only [hps] at hres
        have hpmem : p ∈ (s0 :: rest).filter
            (fun t => res_to_int t.resolution == res_to_int s0.resolution) :=
          List.mem_of_mem_filter
            (sortDescBy_head_mem audio_bitrate _ p ps hps)
        have hsp : s = p := by
          simpa using hres.symm
        have hsort2 : s ∈ sortDescBy (fun t => res_to_int t.resolution)
            (candidates yt) := by
          rw [hsort, hsp]
          exact List.mem_of_mem_filter hpmem
        exact mem_candidates_rank_le yt s ((mem_sortDescBy _ _ _).mp hsort2)
  · intro hnil
    rw [choose_best_video_combo, hnil]
    rfl

/-! Lemmas about the Python strip and the sanitizer. -/

/-- The head surviving a dropWhile fails the predicate. -/
theorem dropWhile_head_false (p : Char → Bool) (l : List Char) (a : Char)
    (t : List Char) (h : l.dropWhile p = a :: t) : p a = false := by
  induction l with
  | nil => exact absurd h (by simp)
  | cons x xs ih =>
      rw [List.dropWhile_cons] at h
      by_cases hx : p x
      · rw [if_pos hx] at h
        exact ih h
      · rw [if_neg hx] at h
        have hxa : x = a := (List.cons.injEq x xs a t).mp h |>.1
        rw [← hxa]
        exact Bool.of_not_eq_true hx

/-- dropWhile leaves a list alone when its head already fails the
predicate. -/
theorem dropWhile_eq_self_of_head (p : Char → Bool) (l : List Char)
    (h : l = [] ∨ ∃ a t, l = a :: t ∧ p a = false) : l.dropWhile p = l := by
  rcases h with rfl | ⟨a, t, rfl, ha⟩
  · rfl
  · rw [List.dropWhile_cons, if_neg (by simp [ha])]

/-- dropWhile is idempotent. -/
theorem dropWhile_idem (p : Char → Bool) (l : List Char) :
    (l.dropWhile p).dropWhile p = l.dropWhile p := by
  apply dropWhile_eq_self_of_head
  cases hd : l.dropWhile p with
  | nil => exact Or.inl rfl
  | cons a t => exact Or.inr ⟨a, t, rfl, dropWhile_head_false p l a t hd⟩

/-- Members of the stripped list are members of the original list. -/
theorem mem_pyStripWs (l : List Char) (a : Char) (h : a ∈ pyStripWs l) :
    a ∈ l := by
  rw [pyStripWs, List.mem_reverse] at h
  have h2 := (List.dropWhile_sublist pyIsSpace).subset h
  rw [List.mem_reverse] at h2
  exact (List.dropWhile_sublist pyIsSpace).subset h2

/-- The stripped list has no leading whitespace left. -/
theorem pyStripWs_front_stable (l : List Char) :
    (pyStripWs l).dropWhile pyIsSpace = pyStripWs l := by
  apply dropWhile_eq_self_of_head
  cases hd : pyStripWs l with
  | nil => exact Or.inl rfl
  | cons a t =>
      refine Or.inr ⟨a, t, rfl, ?_⟩
      have hsplit := List.takeWhile_append_dropWhile (p := pyIsSpace)
        (l := (l.dropWhile pyIsSpace).reverse)
      have hd2 : (l.dropWhile pyIsSpace).reverse
          = ((l.dropWhile pyIsSpace).reverse.takeWhile pyIsSpace)
            ++ (pyStripWs l).reverse := by
        rw [pyStripWs, List.reverse_reverse]
        exact hsplit.symm
      have hd3 : l.dropWhile pyIsSpace
          = pyStripWs l
            ++ ((l.dropWhile pyIsSpace).reverse.takeWhile pyIsSpace).reverse := by
        have := congrArg List.reverse hd2
        rwa [List.reverse_reverse, List.reverse_append, List.reverse_reverse]
          at this
      rw [hd] at hd3
      exact dropWhile_head_false pyIsSpace l a _ (by rw [hd3]; rfl)

/-- The stripped list has no trailing whitespace left. -/
theorem pyStripWs_back_stable (l : List Char) :
    (pyStripWs l).reverse.dropWhile pyIsSpace = (pyStripWs l).reverse := by
  rw [pyStripWs, List.reverse_reverse]
  exact dropWhile_idem pyIsSpace (l.dropWhile pyIsSpace).reverse

/-- A whitespace-test failure rules out the space character. -/
theorem ne_space_of_not_ws (a : Char) (h : pyIsSpace a = false) : a ≠ ' ' := by
  intro rfla
  rw [rfla] at h
  exact absurd h (by decide)

/-- Replacing spaces by underscores maps non-whitespace to non-whitespace at
the head, so a stripped-then-replaced list is stable under a further strip. -/
theorem pyStripWs_replaceSpaces_stable (l : List Char) :
    pyStripWs (replaceSpaces (pyStripWs l)) = replaceSpaces (pyStripWs l) := by
  have hfront : (replaceSpaces (pyStripWs l)).dropWhile pyIsSpace
      = replaceSpaces (pyStripWs l) := by
    apply dropWhile_eq_self_of_head
    cases hs : pyStripWs l with
    | nil => exact Or.inl rfl
    | cons a t =>
        have hws : pyIsSpace a = false := by
          have hfs := pyStripWs_front_stable l
          rw [hs] at hfs
          exact dropWhile_head_false pyIsSpace (a :: t) a t hfs
        refine Or.inr ⟨a, replaceSpaces t, ?_, hws⟩
        rw [replaceSpaces, List.map_cons, if_neg (ne_space_of_not_ws a hws)]
        rfl
  have hback : (replaceSpaces (pyStripWs l)).reverse.dropWhile pyIsSpace
      = (replaceSpaces (pyStripWs l)).reverse := by
    apply dropWhile_eq_self_of_head
    cases hs : (pyStripWs l).reverse with
    | nil =>
        refine Or.inl ?_
        rw [replaceSpaces, ← List.map_reverse, hs]
        rfl
    | cons a t =>
        have hws : pyIsSpace a = false := by
          have := pyStripWs_back_stable l
          rw [hs] at this
          exact dropWhile_head_false pyIsSpace (a :: t) a t this
        refine Or.inr ⟨a, t.map (fun c => if c = ' ' then '_' else c), ?_, hws⟩
        rw [replaceSpaces, ← List.map_reverse, hs, List.map_cons,
          if_neg (ne_space_of_not_ws a hws)]
  rw [pyStripWs, hfront, hback, List.reverse_reverse]

/-- Characters of the sanitized core (before truncation) are either the
underscore or survivors of the forbidden-character removal that are not the
space character. -/
theorem mem_core_cases (l : List Char) (c : Char)
    (hc : c ∈ replaceSpaces (pyStripWs (removeForbidden l))) :
    c = '_' ∨ (c ∈ removeForbidden l ∧ c ≠ ' ') := by
  rw [replaceSpaces] at hc
  rcases List.mem_map.mp hc with ⟨b, hb, hrepl⟩
  by_cases hsp : b = ' '
  · rw [hsp, if_pos rfl] at hrepl
    exact Or.inl hrepl.symm
  · rw [if_neg hsp] at hrepl
    refine Or.inr ?_
    rw [← hrepl]
    exact ⟨mem_pyStripWs _ b hb, hsp⟩

/-- Survivors of the forbidden-character removal are not forbidden. -/
theorem mem_removeForbidden_not_forbidden (l : List Char) (c : Char)
    (h : c ∈ removeForbidden l) : ¬ c ∈ forbiddenChars := by
  rw [removeForbidden] at h
  have hp := (List.mem_filter.mp h).2
  simpa using hp

/-- No character of the sanitized core is forbidden. -/
theorem mem_core_not_forbidden (l : List Char) (c : Char)
    (hc : c ∈ replaceSpaces (pyStripWs (removeForbidden l))) :
    ¬ c ∈ forbiddenChars := by
  rcases mem_core_cases l c hc with rfl | ⟨hmem, _⟩
  · decide
  · exact mem_removeForbidden_not_forbidden l c hmem

/-- Removing forbidden characters is the identity on the sanitized core. -/
theorem removeForbidden_core (l : List Char) :
    removeForbidden (replaceSpaces (pyStripWs (removeForbidden l)))
      = replaceSpaces (pyStripWs (removeForbidden l)) := by
  rw [removeForbidden]
  apply List.filter_eq_self.mpr
  intro c hc
  have := mem_core_not_forbidden l c hc
  simpa using this

/-- Replacing spaces by underscores twice is the same as once. -/
theorem replaceSpaces_idem (l : List Char) :
    replaceSpaces (replaceSpaces l) = replaceSpaces l := by
  rw [replaceSpaces, replaceSpaces, List.map_map]
  apply List.map_congr_left
  intro a _
  by_cases hsp : a = ' '
  · simp [hsp]
  · simp [Function.comp, hsp]

/-- C8 counterexample: on two adjacent spaces the source emits one underscore
per space, while the run-collapsing function described by the spec gives a
single underscore, so the run-collapse part of the claim is false on the
code. -/
theorem safe_name_run_counterexample :
    safe_name "a  b" 255 = "a__b" ∧ sanitizeSpecModel "a  b" 255 = "a_b"
      ∧ ¬ safe_name "a  b" 255 = sanitizeSpecModel "a  b" 255 := by
  decide

/-- C8 amended: safe_name removes every forbidden character, leaves no space
character (each single space becoming one underscore, so a run of k spaces
becomes k underscores and other interior whitespace survives), never exceeds
max_length characters, and maps the empty string to the empty string and the
documented two-word example to the expected name. -/
theorem safe_name_properties (name : String) (max_length : Nat) :
    (∀ c ∈ (safe_name name max_length).data, ¬ c ∈ forbiddenChars)
    ∧ (∀ c ∈ (safe_name name max_length).data, c ≠ ' ')
    ∧ (safe_name name max_length).length ≤ max_length
    ∧ safe_name "" max_length = ""
    ∧ safe_name "  a b  " 255 = "a_b" := by
  refine ⟨?_, ?_, ?_, ?_, by decide⟩
  · intro c hc
    rw [safe_name] at hc
    exact mem_core_not_forbidden name.data c (List.mem_of_mem_take hc)
  · intro c hc
    rw [safe_name] at hc
    rcases mem_core_cases name.data c (List.mem_of_mem_take hc) with rfl | ⟨_, hne⟩
    · decide
    · exact hne
  · rw [safe_name, String.length]
    rw [List.length_take]
    exact min_le_left _ _
  · have hdata : replaceSpaces (pyStripWs (removeForbidden ("" : String).data))
        = [] := by decide
    rw [safe_name, hdata, List.take_nil]

/-- C9 counterexample: truncation can expose a trailing tab, which a second
application strips, so safe_name is not idempotent on the code. -/
theorem safe_name_not_idempotent :
    ¬ safe_name (safe_name "ab\tc" 3) 3 = safe_name "ab\tc" 3 := by
  decide

/-- C9 amended: safe_name is idempotent whenever the truncation step does not
cut, in particular whenever the sanitized core already fits max_length. -/
theorem safe_name_idempotent_no_truncation (name : String) (max_length : Nat)
    (h : (replaceSpaces (pyStripWs (removeForbidden name.data))).length
      ≤ max_length) :
    safe_name (safe_name name max_length) max_length
      = safe_name name max_length := by
  have hcore : safe_name name max_length
      = ⟨replaceSpaces (pyStripWs (removeForbidden name.data))⟩ := by
    rw [safe_name, List.take_of_length_le h]
  rw [hcore]
  apply String.ext
  show (replaceSpaces (pyStripWs (removeForbidden
      (replaceSpaces (pyStripWs (removeForbidden name.data)))))).take max_length
    = replaceSpaces (pyStripWs (removeForbidden name.data))
  rw [removeForbidden_core name.data,
    pyStripWs_replaceSpaces_stable (removeForbidden name.data),
    replaceSpaces_idem (pyStripWs (removeForbidden name.data)),
    List.take_of_length_le h]

/-- C9 amended witness: the no-truncation idempotence at a concrete input. -/
theorem safe_name_idempotent_no_truncation_witness :
    safe_name (safe_name "  a b  " 255) 255 = safe_name "  a b  " 255 :=
  safe_name_idempotent_no_truncation "  a b  " 255 (by decide)

/-! Helper lemmas about paths and the filesystem state. -/

/-- Appending different suffixes to one string gives different contents. -/
theorem append_suffix_ne (s : String) (x y : String) (hxy : ¬ x.data = y.data) :
    ¬ (s ++ x).data = (s ++ y).data := by
  intro h
  rw [String.data_append, String.data_append] at h
  exact hxy (List.append_cancel_left h)

/-- Joining one folder with differing last segments gives differing paths. -/
theorem pjoin_ne_of_data_ne (f : String) (x y : String)
    (hxy : ¬ x.data = y.data) : ¬ pjoin f x = pjoin f y := by
  intro heq
  have hd := congrArg String.data heq
  rw [pjoin, pjoin, String.data_append, String.data_append] at hd
  exact hxy (List.append_cancel_left hd)

/-- The two temporary paths of one item differ. -/
theorem audioTemp_ne_videoTemp (b : String) (yt : YT) :
    ¬ audioTempPath b yt = videoTempPath b yt :=
  pjoin_ne_of_data_ne _ _ _ (append_suffix_ne _ _ _ (by decide))

/-- The merged path differs from the video-side temporary path. -/
theorem merged_ne_videoTemp (b : String) (yt : YT) :
    ¬ mergedPath b yt = videoTempPath b yt :=
  pjoin_ne_of_data_ne _ _ _ (append_suffix_ne _ _ _ (by decide))

/-- The merged path differs from the audio-side temporary path. -/
theorem merged_ne_audioTemp (b : String) (yt : YT) :
    ¬ mergedPath b yt = audioTempPath b yt :=
  pjoin_ne_of_data_ne _ _ _ (append_suffix_ne _ _ _ (by decide))

/-- Creating a directory leaves the files untouched. -/
theorem mkdirs_files (fs : FS) (d : String) : (fs.mkdirs d).files = fs.files := by
  rw [FS.mkdirs]
  split <;> rfl

/-- Adding a file that was absent pushes it onto the file list. -/
theorem addFile_files_of_not_mem (fs : FS) (p : String) (h : ¬ p ∈ fs.files) :
    (fs.addFile p).files = p :: fs.files := by
  rw [FS.addFile, if_neg h]

/-- Membership after adding a file comes from the new file or the old set. -/
theorem mem_addFile (fs : FS) (p q : String) (h : q ∈ (fs.addFile p).files) :
    q = p ∨ q ∈ fs.files := by
  by_cases hp : p ∈ fs.files
  · rw [FS.addFile, if_pos hp] at h
    exact Or.inr h
  · rw [FS.addFile, if_neg hp] at h
    exact List.mem_cons.mp h

/-- A catalog holding only an audio-only variant, so the candidate set of the
selector is empty. -/
def ytNoCandidate : YT :=
  ⟨ "No Video Here", [⟨ "audio/mp4", none, true, false, some "128kbps"⟩]⟩

/-- C5 counterexample: with the empty selection the orchestrator still runs
makedirs before selecting, so on a fresh filesystem the state after the call
differs from the state before it (the destination folder was created). -/
theorem none_selection_changes_filesystem :
    choose_best_video_combo ytNoCandidate = (none, none, none)
      ∧ ¬ (download_single_video_auto ⟨ true, true, 0⟩ ytNoCandidate "video"
            "downloads" ⟨ [], []⟩).1 = (⟨ [], []⟩ : FS) := by
  decide

/-- C5 amended: on the empty selection the orchestrator reports that no valid
stream could be determined and performs no further effect: the result is the
input state with only the destination folder created (a creation that
happens before the selection), with no file created or removed and no
external invocation. -/
theorem none_selection_only_mkdir (yt : YT) (env : Env) (base_folder : String)
    (fs0 : FS) (v a : Option Stream)
    (hc : choose_best_video_combo yt = (none, v, a)) :
    download_single_video_auto env yt "video" base_folder fs0
      = (fs0.mkdirs (videoFolder base_folder yt),
         [Event.msg "Could not determine a valid stream for video download."]) := by
  simp only [download_single_video_auto, if_true]
  rw [hc, if_neg (show ¬ ("video" : String) = "audio" by decide)]

/-- C5 amended witness: the characterization at a concrete catalog and
filesystem. -/
theorem none_selection_only_mkdir_witness :
    download_single_video_auto ⟨ true, true, 0⟩ ytNoCandidate "video"
        "downloads" ⟨ [], []⟩
      = (FS.mkdirs ⟨ [], []⟩ (videoFolder "downloads" ytNoCandidate),
         [Event.msg "Could not determine a valid stream for video download."]) :=
  none_selection_only_mkdir ytNoCandidate ⟨ true, true, 0⟩ "downloads" ⟨ [], []⟩
    none none (by decide)

/-- A video-only 1080p variant. -/
def vid1080 : Stream := ⟨ "video/mp4", some "1080p", false, true, none⟩

/-- A video-only 720p variant. -/
def vid720 : Stream := ⟨ "video/mp4", some "720p", false, true, none⟩

/-- A video-only 1440p variant, above the cap. -/
def vid1440 : Stream := ⟨ "video/mp4", some "1440p", false, true, none⟩

/-- An audio-only variant at 160 kbps. -/
def aud160 : Stream := ⟨ "audio/mp4", none, true, false, some "160kbps"⟩

/-- An audio-only variant at 128 kbps. -/
def aud128 : Stream := ⟨ "audio/mp4", none, true, false, some "128kbps"⟩

/-- A progressive 1080p variant at 128 kbps. -/
def prog128 : Stream := ⟨ "video/mp4", some "1080p", true, true, some "128kbps"⟩

/-- A progressive 1080p variant at 160 kbps. -/
def prog160 : Stream := ⟨ "video/mp4", some "1080p", true, true, some "160kbps"⟩

/-- Scenario A of the spec: two video-only tiers and one audio-only stream. -/
def ytSceneA : YT := ⟨ "Scene A", [vid1080, vid720, aud160]⟩

/-- Scenario B of the spec: two tied progressive 1080p variants and a 1440p
variant above the cap. -/
def ytSceneB : YT := ⟨ "Scene B", [prog128, prog160, vid1440]⟩

/-- A catalog with a video-only top tier and no audio-only variant at all. -/
def ytMergeNoAudio : YT := ⟨ "Silent Movie", [vid1080, vid720]⟩

/-- C6: in a merge acquisition in which the video transfer succeeds and the
audio transfer raises, the pipeline reports the download error, never invokes
the external merge, and does not create the merged output file. -/
theorem merge_audio_download_failure (yt : YT) (env : Env) (base_folder : String)
    (fs0 : FS) (v a : Stream)
    (hc : choose_best_video_combo yt = (some "merge", some v, some a))
    (hv : env.videoOk = true) (ha : env.audioOk = false)
    (hm : ¬ mergedPath base_folder yt ∈ fs0.files) :
    Event.msg ("Error downloading streams: " ++ "DownloadError")
        ∈ (download_single_video_auto env yt "video" base_folder fs0).2
      ∧ (∀ vp ap op ec, ¬ Event.ffmpegRun vp ap op ec
          ∈ (download_single_video_auto env yt "video" base_folder fs0).2)
      ∧ ¬ mergedPath base_folder yt
          ∈ (download_single_video_auto env yt "video" base_folder fs0).1.files := by
  have hrun : download_single_video_auto env yt "video" base_folder fs0
      = ((fs0.mkdirs (videoFolder base_folder yt)).addFile
            (videoTempPath base_folder yt),
         [Event.msg ("Downloading video-only stream for: " ++ yt.title),
          Event.msg ("Downloading audio stream for: " ++ yt.title),
          Event.msg ("Error downloading streams: " ++ "DownloadError")]) := by
    simp only [download_single_video_auto, if_true]
    rw [hc, if_neg (show ¬ ("video" : String) = "audio" by decide)]
    simp [tryDownload, hv, ha]
  rw [hrun]
  refine ⟨by simp, by simp, ?_⟩
  intro hmem
  rcases mem_addFile _ _ _ hmem with heq | hmem0
  · exact merged_ne_videoTemp base_folder yt heq
  · rw [mkdirs_files] at hmem0
    exact hm hmem0

/-- C6 witness: the download-error isolation at a concrete catalog whose
selection is a merge, with a failing audio transfer. -/
theorem merge_audio_download_failure_witness :
    Event.msg ("Error downloading streams: " ++ "DownloadError")
        ∈ (download_single_video_auto ⟨ true, false, 0⟩ ytSceneA "video"
            "downloads" ⟨ [], []⟩).2
      ∧ (∀ vp ap op ec, ¬ Event.ffmpegRun vp ap op ec
          ∈ (download_single_video_auto ⟨ true, false, 0⟩ ytSceneA "video"
              "downloads" ⟨ [], []⟩).2)
      ∧ ¬ mergedPath "downloads" ytSceneA
          ∈ (download_single_video_auto ⟨ true, false, 0⟩ ytSceneA "video"
              "downloads" ⟨ [], []⟩).1.files :=
  merge_audio_download_failure ytSceneA ⟨ true, false, 0⟩ "downloads" ⟨ [], []⟩
    vid1080 aud160 (by decide) rfl rfl (by decide)

/-- A file just added is present. -/
theorem mem_addFile_self (fs : FS) (p : String) : p ∈ (fs.addFile p).files := by
  by_cases hp : p ∈ fs.files
  · rw [FS.addFile, if_pos hp]
    exact hp
  · rw [FS.addFile, if_neg hp]
    exact List.mem_cons_self p fs.files

/-- C10: when the selector returns a merge whose audio side is absent because
the catalog has no audio-only variant, the orchestrator downloads the video
side, the attempted download of the absent audio side raises and is caught as
a download error, no merge is invoked and no merged output is created, while
the downloaded video temporary file stays in the destination folder. -/
theorem merge_absent_audio_side (yt : YT) (env : Env) (base_folder : String)
    (fs0 : FS) (v : Stream)
    (_hnoaudio : audioOnlyStreams yt = [])
    (hc : choose_best_video_combo yt = (some "merge", some v, none))
    (hv : env.videoOk = true)
    (hm : ¬ mergedPath base_folder yt ∈ fs0.files) :
    videoTempPath base_folder yt
        ∈ (download_single_video_auto env yt "video" base_folder fs0).1.files
      ∧ Event.msg ("Error downloading streams: " ++ "AttributeError")
          ∈ (download_single_video_auto env yt "video" base_folder fs0).2
      ∧ (∀ vp ap op ec, ¬ Event.ffmpegRun vp ap op ec
          ∈ (download_single_video_auto env yt "video" base_folder fs0).2)
      ∧ ¬ mergedPath base_folder yt
          ∈ (download_single_video_auto env yt "video" base_folder fs0).1.files := by
  have hrun : download_single_video_auto env yt "video" base_folder fs0
      = ((fs0.mkdirs (videoFolder base_folder yt)).addFile
            (videoTempPath base_folder yt),
         [Event.msg ("Downloading video-only stream for: " ++ yt.title),
          Event.msg ("Downloading audio stream for: " ++ yt.title),
          Event.msg ("Error downloading streams: " ++ "AttributeError")]) := by
    simp only [download_single_video_auto, if_true]
    rw [hc, if_neg (show ¬ ("video" : String) = "audio" by decide)]
    simp [tryDownload, hv]
  rw [hrun]
  refine ⟨mem_addFile_self _ _, by simp, by simp, ?_⟩
  intro hmem
  rcases mem_addFile _ _ _ hmem with heq | hmem0
  · exact merged_ne_videoTemp base_folder yt heq
  · rw [mkdirs_files] at hmem0
    exact hm hmem0

/-- C10 witness: the absent-audio merge at a concrete audio-free catalog. -/
theorem merge_absent_audio_side_witness :
    videoTempPath "downloads" ytMergeNoAudio
        ∈ (download_single_video_auto ⟨ true, true, 0⟩ ytMergeNoAudio "video"
            "downloads" ⟨ [], []⟩).1.files :=
  (merge_absent_audio_side ytMergeNoAudio ⟨ true, true, 0⟩ "downloads" ⟨ [], []⟩
    vid1080 (by decide) (by decide) rfl (by decide)).1

/-- C1 counterexample: at a concrete merge acquisition with both transfers
succeeding and the external merge exiting with 1, the pipeline reports the
failure but the two temporary files are deleted rather than kept. -/
theorem merge_failure_deletes_temps :
    Event.ffmpegRun (videoTempPath "downloads" ytSceneA)
        (audioTempPath "downloads" ytSceneA) (mergedPath "downloads" ytSceneA) 1
      ∈ (download_single_video_auto ⟨ true, true, 1⟩ ytSceneA "video"
          "downloads" ⟨ [], []⟩).2
    ∧ Event.msg "FFmpeg merging failed!"
      ∈ (download_single_video_auto ⟨ true, true, 1⟩ ytSceneA "video"
          "downloads" ⟨ [], []⟩).2
    ∧ ¬ videoTempPath "downloads" ytSceneA
      ∈ (download_single_video_auto ⟨ true, true, 1⟩ ytSceneA "video"
          "downloads" ⟨ [], []⟩).1.files
    ∧ ¬ audioTempPath "downloads" ytSceneA
      ∈ (download_single_video_auto ⟨ true, true, 1⟩ ytSceneA "video"
          "downloads" ⟨ [], []⟩).1.files := by
  decide

/-- C1 amended: on a merge acquisition whose two downloads succeed and whose
external merge exits nonzero, the pipeline reports the merge failure but then
deletes the two temporary files anyway (the unconditional cleanup of app.py
lines 193 to 195), and the merged output is not created: on a filesystem not
already holding the three paths, the file set ends exactly as it began. -/
theorem merge_failure_reports_and_cleans (yt : YT) (env : Env)
    (base_folder : String) (fs0 : FS) (v a : Stream)
    (hc : choose_best_video_combo yt = (some "merge", some v, some a))
    (hv : env.videoOk = true) (hau : env.audioOk = true)
    (hex : ¬ env.mergeExit = 0)
    (hv0 : ¬ videoTempPath base_folder yt ∈ fs0.files)
    (ha0 : ¬ audioTempPath base_folder yt ∈ fs0.files)
    (hm0 : ¬ mergedPath base_folder yt ∈ fs0.files) :
    download_single_video_auto env yt "video" base_folder fs0
      = (⟨(fs0.mkdirs (videoFolder base_folder yt)).dirs, fs0.files⟩,
         [Event.msg ("Downloading video-only stream for: " ++ yt.title),
          Event.msg ("Downloading audio stream for: " ++ yt.title),
          Event.msg ("Merging video and audio for: " ++ yt.title),
          Event.msg "Running FFmpeg command:",
          Event.ffmpegRun (videoTempPath base_folder yt)
            (audioTempPath base_folder yt) (mergedPath base_folder yt)
            env.mergeExit,
          Event.msg "FFmpeg merging failed!",
          Event.msg "Temporary files removed."])
      ∧ ¬ videoTempPath base_folder yt
          ∈ (download_single_video_auto env yt "video" base_folder fs0).1.files
      ∧ ¬ audioTempPath base_folder yt
          ∈ (download_single_video_auto env yt "video" base_folder fs0).1.files
      ∧ ¬ mergedPath base_folder yt
          ∈ (download_single_video_auto env yt "video" base_folder fs0).1.files := by
  have hfsA : (fs0.mkdirs (videoFolder base_folder yt)).files = fs0.files :=
    mkdirs_files fs0 _
  have hfs1 : (fs0.mkdirs (videoFolder base_folder yt)).addFile
      (videoTempPath base_folder yt)
      = ⟨(fs0.mkdirs (videoFolder base_folder yt)).dirs,
         videoTempPath base_folder yt :: fs0.files⟩ := by
    rw [FS.addFile, if_neg (by rw [hfsA]; exact hv0), hfsA]
  have hmem1 : ¬ audioTempPath base_folder yt
      ∈ (videoTempPath base_folder yt :: fs0.files) := by
    intro hmem
    rcases List.mem_cons.mp hmem with heq | hmem0
    · exact audioTemp_ne_videoTemp base_folder yt heq
    · exact ha0 hmem0
  have hdl1 : tryDownload env.videoOk (some v) (videoTempPath base_folder yt)
      (fs0.mkdirs (videoFolder base_folder yt))
      = .ok ⟨(fs0.mkdirs (videoFolder base_folder yt)).dirs,
             videoTempPath base_folder yt :: fs0.files⟩ := by
    simp only [tryDownload, hv, if_true]
    rw [hfs1]
  have hdl2 : tryDownload env.audioOk (some a) (audioTempPath base_folder yt)
      (⟨(fs0.mkdirs (videoFolder base_folder yt)).dirs,
        videoTempPath base_folder yt :: fs0.files⟩ : FS)
      = .ok ⟨(fs0.mkdirs (videoFolder base_folder yt)).dirs,
             audioTempPath base_folder yt :: videoTempPath base_folder yt
               :: fs0.files⟩ := by
    simp only [tryDownload, hau, if_true]
    rw [FS.addFile, if_neg hmem1]
  have hmerge : merge_video_audio env.mergeExit (videoTempPath base_folder yt)
      (audioTempPath base_folder yt) (mergedPath base_folder yt)
      (⟨(fs0.mkdirs (videoFolder base_folder yt)).dirs,
        audioTempPath base_folder yt :: videoTempPath base_folder yt
          :: fs0.files⟩ : FS)
      = (⟨(fs0.mkdirs (videoFolder base_folder yt)).dirs,
          audioTempPath base_folder yt :: videoTempPath base_folder yt
            :: fs0.files⟩,
         [Event.msg "Running FFmpeg command:",
          Event.ffmpegRun (videoTempPath base_folder yt)
            (audioTempPath base_folder yt) (mergedPath base_folder yt)
            env.mergeExit,
          Event.msg "FFmpeg merging failed!"],
         mergedPath base_folder yt) := by
    simp [merge_video_audio, hex]
  have herase1 : (audioTempPath base_folder yt :: videoTempPath base_folder yt
      :: fs0.files).erase (videoTempPath base_folder yt)
      = audioTempPath base_folder yt :: fs0.files := by
    rw [List.erase_cons_tail]
    · rw [List.erase_cons_head]
    · simp [audioTemp_ne_videoTemp base_folder yt]
  have hrm1 : osRemove (⟨(fs0.mkdirs (videoFolder base_folder yt)).dirs,
      audioTempPath base_folder yt :: videoTempPath base_folder yt
        :: fs0.files⟩ : FS) (videoTempPath base_folder yt)
      = .ok ⟨(fs0.mkdirs (videoFolder base_folder yt)).dirs,
             audioTempPath base_folder yt :: fs0.files⟩ := by
    rw [osRemove, if_pos (by simp)]
    rw [herase1]
  have hrm2 : osRemove (⟨(fs0.mkdirs (videoFolder base_folder yt)).dirs,
      audioTempPath base_folder yt :: fs0.files⟩ : FS)
      (audioTempPath base_folder yt)
      = .ok ⟨(fs0.mkdirs (videoFolder base_folder yt)).dirs, fs0.files⟩ := by
    rw [osRemove, if_pos (by simp)]
    rw [List.erase_cons_head]
  have hrun : download_single_video_auto env yt "video" base_folder fs0
      = (⟨(fs0.mkdirs (videoFolder base_folder yt)).dirs, fs0.files⟩,
         [Event.msg ("Downloading video-only stream for: " ++ yt.title),
          Event.msg ("Downloading audio stream for: " ++ yt.title),
          Event.msg ("Merging video and audio for: " ++ yt.title),
          Event.msg "Running FFmpeg command:",
          Event.ffmpegRun (videoTempPath base_folder yt)
            (audioTempPath base_folder yt) (mergedPath base_folder yt)
            env.mergeExit,
          Event.msg "FFmpeg merging failed!",
          Event.msg "Temporary files removed."]) := by
    simp only [download_single_video_auto, if_true]
    rw [hc, if_neg (show ¬ ("video" : String) = "audio" by decide)]
    simp only [hdl1, hdl2, hmerge, hrm1, hrm2]
    rw [if_neg (show ¬ ("merge" : String) = "progressive" by decide)]
    simp only [if_true]
    rfl
  refine ⟨hrun, ?_, ?_, ?_⟩
  · rw [hrun]
    exact hv0
  · rw [hrun]
    exact ha0
  · rw [hrun]
    exact hm0

/-- C1 amended witness: the video-side temporary file is gone after the
failed merge at a concrete catalog. -/
theorem merge_failure_reports_and_cleans_witness :
    ¬ videoTempPath "downloads" ytSceneA
      ∈ (download_single_video_auto ⟨ true, true, 1⟩ ytSceneA "video"
          "downloads" ⟨ [], []⟩).1.files :=
  (merge_failure_reports_and_cleans ytSceneA ⟨ true, true, 1⟩ "downloads"
    ⟨ [], []⟩ vid1080 aud160 (by decide) rfl rfl (by decide) (by decide)
    (by decide) (by decide)).2.1

/-- A well-behaved playlist item wrapping the progressive catalog. -/
def plItemGood : PlItem := ⟨ true, true, ytSceneB, ⟨ true, true, 0⟩⟩

/-- An item whose handle construction fails (app.py lines 230 to 235). -/
def plItemInitFail : PlItem := ⟨ false, true, ytSceneA, ⟨ true, true, 0⟩⟩

/-- An item whose construction succeeds but whose later title resolution at
app.py line 240 raises. -/
def plItemTitleFail : PlItem := ⟨ true, false, ytSceneA, ⟨ true, true, 0⟩⟩

/-- A playlist whose first item fails title resolution mid-walk. -/
def plWalkExample : PL := ⟨ true, "My Playlist", [plItemTitleFail, plItemGood]⟩

/-- The same playlist without the failing item. -/
def plWalkGoodOnly : PL := ⟨ true, "My Playlist", [plItemGood]⟩

/-- A playlist whose first item fails only handle construction. -/
def plWalkMixed : PL := ⟨ true, "My Playlist", [plItemInitFail, plItemGood]⟩

/-- C7 counterexample: an item whose title resolution raises aborts the whole
walk (the construction try block of the source does not cover line 240), so
the later good item is never reached, while the same walk without the failing
item completes. -/
theorem playlist_walk_aborts :
    walkCompleted (download_playlist plWalkExample "video" "downloads"
        ⟨ [], []⟩) = false
      ∧ walkCompleted (download_playlist plWalkGoodOnly "video" "downloads"
        ⟨ [], []⟩) = true := by
  decide

/-- The walk completes for every item list whose items all resolve their
titles, whatever their construction or download outcomes. -/
theorem processItems_completes (mode pl_folder : String) :
    ∀ (items : List PlItem), (∀ it ∈ items, it.titleOk = true) →
      ∀ fs, walkCompleted (processItems mode pl_folder fs items) = true := by
  intro items
  induction items with
  | nil =>
      intro _ fs
      rfl
  | cons it rest ih =>
      intro h fs
      by_cases hinit : it.initOk = false
      · cases hrec : processItems mode pl_folder fs rest with
        | ok out =>
            rw [processItems, if_pos hinit, hrec]
            rfl
        | error e =>
            have hcontra := ih (fun i hi => h i (List.mem_cons_of_mem it hi)) fs
            rw [hrec] at hcontra
            exact absurd hcontra (by simp [walkCompleted])
      · rw [processItems, if_neg hinit, h it (List.mem_cons_self it rest),
          if_neg (show ¬ (true = false) by decide)]
        simp only []
        generalize (if mode = "audio" then
            download_single_video_auto it.env it.yt "audio" pl_folder fs
          else if mode = "video" then
            download_single_video_auto it.env it.yt "video" pl_folder fs
          else (fs, [Event.msg "Unknown mode for playlist download."])) = step
        cases hrec : processItems mode pl_folder step.1 rest with
        | ok out => rfl
        | error e =>
            have hcontra := ih (fun i hi => h i (List.mem_cons_of_mem it hi))
              step.1
            rw [hrec] at hcontra
            exact absurd hcontra (by simp [walkCompleted])

/-- C7 amended: a failure constructing an item handle is caught and logged
and the walk proceeds, so a walk in which every item resolves its title runs
to completion whatever the per-item construction or acquisition outcomes; but
a failure resolving a title after construction propagates and aborts the
remaining walk. -/
theorem playlist_walk_isolates_init_failures (pl : PL)
    (mode base_folder : String) (fs0 : FS)
    (h : ∀ it ∈ pl.items, it.titleOk = true) :
    walkCompleted (download_playlist pl mode base_folder fs0) = true := by
  rw [download_playlist]
  by_cases hinit : pl.initOk = false
  · rw [if_pos hinit]
    rfl
  · rw [if_neg hinit]
    exact processItems_completes mode _ pl.items h _

/-- C7 amended witness: a walk with one construction failure and one good
item completes. -/
theorem playlist_walk_isolates_init_failures_witness :
    walkCompleted (download_playlist plWalkMixed "video" "downloads"
      ⟨ [], []⟩) = true :=
  playlist_walk_isolates_init_failures plWalkMixed "video" "downloads"
    ⟨ [], []⟩ (by decide)

/-- C2 witness: the progressive-top case at the Scenario B catalog, tied
progressive 1080p variants with the higher bitrate winning. -/
theorem selector_single_of_progressive_top_witness :
    ∃ p, choose_best_video_combo ytSceneB = (some "progressive", some p, none)
      ∧ p ∈ topTier ytSceneB ∧ p.includes_audio_track = true
      ∧ (∀ q ∈ progressiveTop ytSceneB, audio_bitrate q ≤ audio_bitrate p)
      ∧ ((progressiveTop ytSceneB).filter
          (fun q => audio_bitrate q == audio_bitrate p)).head? = some p
      ∧ (∀ s ∈ candidates ytSceneB,
          res_to_int s.resolution ≤ bestRank ytSceneB) :=
  selector_single_of_progressive_top ytSceneB (by decide)

/-- C3 witness: the merge case at the Scenario A catalog. -/
theorem selector_merge_of_no_progressive_top_witness :
    ∃ v a, choose_best_video_combo ytSceneA = (some "merge", some v, some a)
      ∧ (topTier ytSceneA).head? = some v
      ∧ res_to_int v.resolution = bestRank ytSceneA
      ∧ (∀ s ∈ candidates ytSceneA, res_to_int s.resolution ≤ bestRank ytSceneA)
      ∧ pyStartswith v.mime_type "video" = true
      ∧ v.includes_audio_track = false
      ∧ a ∈ audioOnlyStreams ytSceneA
      ∧ (∀ b ∈ audioOnlyStreams ytSceneA, audio_bitrate b ≤ audio_bitrate a)
      ∧ ((audioOnlyStreams ytSceneA).filter
          (fun b => audio_bitrate b == audio_bitrate a)).head? = some a :=
  selector_merge_of_no_progressive_top ytSceneA (by decide) (by decide)
    (by decide)

/-- C4 witness: the cap at a concrete merge selection and the empty selection
at a catalog with no eligible variant. -/
theorem selector_rank_cap_witness :
    res_to_int vid1080.resolution ≤ 1080
      ∧ choose_best_video_combo ytNoCandidate = (none, none, none) :=
  ⟨(selector_rank_cap ytSceneA).1 vid1080 (by decide),
   (selector_rank_cap ytNoCandidate).2 (by decide)⟩

/-- C8 witness: a forbidden character is absent from a concrete sanitized
name. -/
theorem safe_name_properties_witness :
    ¬ '/' ∈ (safe_name "a/b: c" 10).data :=
  fun hmem => (safe_name_properties "a/b: c" 10).1 '/' hmem (by decide)

end Ytdl

